import Mathlib

/-!
# Verification of the QuranReader component (src/QuranReader.tsx)

A shallow embedding of the stateful logic of the `QuranReader` React
component: the `useState` hooks become the fields of `ReaderState`, the
event handlers and effects become state transformers, and the two network
fetches become explicit `Except` inputs (success carries the decoded
payload, failure models a rejected promise caught by the `catch` block).
`localStorage` access is modelled by an `Option String` blob together with
concrete serialize/parse functions mirroring `JSON.stringify`/`JSON.parse`
on the bookmark-array shape the component writes.
-/

namespace QuranReader

/-- `Language` from `../types`: the component only distinguishes `'ar'`
from the rest (`lang === 'ar'` checks). -/
inductive Language where
  | ar
  | en
deriving DecidableEq, Repr

/-- `Surah` record as consumed by the component (fields actually read). -/
structure Surah where
  number : Nat
  name : String
  englishName : String
  numberOfAyahs : Nat
  revelationType : String
deriving DecidableEq, Repr

/-- `Ayah` record as consumed by the component (fields actually read). -/
structure Ayah where
  number : Nat
  numberInSurah : Nat
  text : String
deriving DecidableEq, Repr

/-- `SavedBookmark` (src/QuranReader.tsx lines 13-18). -/
structure SavedBookmark where
  surahNumber : Nat
  surahName : String
  ayahNumber : Nat
  text : String
deriving DecidableEq, Repr

/-- The component's `useState` hooks (src/QuranReader.tsx lines 21-27). -/
structure ReaderState where
  surahs : List Surah
  selectedSurah : Option Surah
  ayahs : List Ayah
  loading : Bool
  searchTerm : String
  bookmarks : List SavedBookmark
  showBookmarksOnly : Bool
deriving DecidableEq, Repr

/-- The initial hook values (lines 21-27): empty lists, nothing selected,
`loading = true`, empty search, no bookmarks, list view. -/
def initialState : ReaderState :=
  { surahs := []
    selectedSurah := none
    ayahs := []
    loading := true
    searchTerm := ""
    bookmarks := []
    showBookmarksOnly := false }

/-- `fetchSurahs` (lines 43-52): on success replace `surahs` and clear
`loading`; on failure the `catch` only logs, so the state is untouched. -/
def fetchSurahs (result : Except String (List Surah)) (st : ReaderState) :
    ReaderState :=
  match result with
  | Except.ok data => { st with surahs := data, loading := false }
  | Except.error _ => st

/-- `loadSurah` (lines 54-66): sets `loading` before the await; on success
replaces `ayahs`, selects the surah, clears `loading` and resets
`showBookmarksOnly`; on failure only the initial `setLoading(true)` has
happened (the `catch` just logs). -/
def loadSurah (surah : Surah) (result : Except String (List Ayah))
    (st : ReaderState) : ReaderState :=
  match result with
  | Except.ok data =>
      { st with ayahs := data, selectedSurah := some surah,
                loading := false, showBookmarksOnly := false }
  | Except.error _ => { st with loading := true }

/-- The membership scan used at lines 71, 86 and (negated) 73, 90:
`bookmarks.some(b => b.surahNumber === n && b.ayahNumber === i)`. -/
def bookmarkMatches (n i : Nat) (b : SavedBookmark) : Bool :=
  b.surahNumber == n && b.ayahNumber == i

/-- `contains` membership test over a bookmark collection (the scan the
component performs wherever it asks whether a (surah, ayah) key is
bookmarked). -/
def containsBookmark (bs : List SavedBookmark) (n i : Nat) : Bool :=
  bs.any (bookmarkMatches n i)

/-- The bookmark record built by the toggle-on branch (lines 75-80): the
display name is a language-dependent snapshot of the selected surah. -/
def snapshotBookmark (sel : Surah) (ayah : Ayah) (lang : Language) :
    SavedBookmark :=
  { surahNumber := sel.number
    surahName := if lang = Language.ar then sel.name else sel.englishName
    ayahNumber := ayah.numberInSurah
    text := ayah.text }

/-- `toggleAyahBookmark` (lines 68-82): no-op without a selected surah;
otherwise remove every bookmark matching the key if one exists, else
append a snapshot built from the selected surah's display name (language
dependent) and the ayah's text. -/
def toggleAyahBookmark (ayah : Ayah) (lang : Language) (st : ReaderState) :
    ReaderState :=
  match st.selectedSurah with
  | none => st
  | some sel =>
      let isSaved := st.bookmarks.any (bookmarkMatches sel.number ayah.numberInSurah)
      if isSaved then
        { st with bookmarks :=
            st.bookmarks.filter (fun b => !(bookmarkMatches sel.number ayah.numberInSurah b)) }
      else
        { st with bookmarks := st.bookmarks ++ [snapshotBookmark sel ayah lang] }

/-- `isAyahBookmarked` (lines 84-87): `false` without a selected surah,
else the membership scan keyed by the selected surah's number. -/
def isAyahBookmarked (ayahNumber : Nat) (st : ReaderState) : Bool :=
  match st.selectedSurah with
  | none => false
  | some sel => st.bookmarks.any (bookmarkMatches sel.number ayahNumber)

/-- `deleteBookmark` (lines 89-91): unconditional filter on the key. -/
def deleteBookmark (surahNumber ayahNumber : Nat) (st : ReaderState) :
    ReaderState :=
  { st with bookmarks :=
      st.bookmarks.filter (fun b => !(bookmarkMatches surahNumber ayahNumber b)) }

/-- JS `String.prototype.includes`: literal substring containment. -/
def strIncludes (s q : String) : Bool :=
  decide (q.data <:+: s.data)

/-- JS `String.prototype.toLowerCase`, modelled as character-wise
lowercasing. -/
def jsToLowerCase (s : String) : String :=
  String.mk (s.data.map Char.toLower)

/-- `filteredSurahs` (lines 100-103):
`surahs.filter(s => s.name.includes(searchTerm) ||
 s.englishName.toLowerCase().includes(searchTerm.toLowerCase()))`.
Note it does not consult the active language. -/
def filteredSurahs (st : ReaderState) : List Surah :=
  st.surahs.filter (fun s =>
    strIncludes s.name st.searchTerm ||
    strIncludes (jsToLowerCase s.englishName) (jsToLowerCase st.searchTerm))

/-- The back button in the detail header (line 111):
`onClick={() => setSelectedSurah(null)}` — only the selection changes. -/
def goBack (st : ReaderState) : ReaderState :=
  { st with selectedSurah := none }

/-- The filter as the spec describes it, for comparison with
`filteredSurahs`: "returns sections where, depending on active language,
either the local-name field contains `query` as a literal substring (no
normalization) or the english-name field contains `query`
case-insensitively". -/
def specFilteredSurahs (lang : Language) (surahs : List Surah)
    (query : String) : List Surah :=
  surahs.filter (fun s =>
    match lang with
    | Language.ar => strIncludes s.name query
    | Language.en => strIncludes (jsToLowerCase s.englishName) (jsToLowerCase query))

/-- The bookmark-mutating user actions: the bookmark toggle button in the
detail view and the trash button on a bookmark card. -/
inductive BookmarkOp where
  | toggle (ayah : Ayah) (lang : Language)
  | remove (surahNumber ayahNumber : Nat)
deriving Repr

/-- Dispatch one bookmark operation on the component state. -/
def applyOp (op : BookmarkOp) (st : ReaderState) : ReaderState :=
  match op with
  | BookmarkOp.toggle a lg => toggleAyahBookmark a lg st
  | BookmarkOp.remove n i => deleteBookmark n i st

/-- Run a sequence of bookmark operations left to right. -/
def runOps (ops : List BookmarkOp) (st : ReaderState) : ReaderState :=
  ops.foldl (fun s op => applyOp op s) st

/-- No two bookmarks share the same (surahNumber, ayahNumber) key. -/
def keysUnique (bs : List SavedBookmark) : Prop :=
  (bs.map (fun b => (b.surahNumber, b.ayahNumber))).Nodup

instance (bs : List SavedBookmark) : Decidable (keysUnique bs) := by
  unfold keysUnique; infer_instance

/-!
## Persistence layer

The component persists `bookmarks` with
`localStorage.setItem('quran_bookmarks', JSON.stringify(bookmarks))`
(lines 39-41) and reads it back with
`JSON.parse(localStorage.getItem('quran_bookmarks'))` (lines 33-36).
`JSON.stringify` on a `SavedBookmark[]` and `JSON.parse` on the resulting
blob are modelled concretely below: the serializer emits exactly the JSON
text `JSON.stringify` produces for this array-of-records shape (object
keys in insertion order, strings with `"`, `\` and the common control
characters escaped), and the parser is a recursive-descent reader of that
array-of-records grammar which fails (`none`, modelling the thrown
`SyntaxError`) on any other input. -/

/-- Escaping of one character inside a JSON string literal, as
`JSON.stringify` emits it (other control characters would use `\uXXXX`;
they are left raw here, which does not change any round-trip result). -/
def escChar (c : Char) : List Char :=
  if c = '\x22' then ['\\', '\x22']
  else if c = '\\' then ['\\', '\\']
  else if c = '\n' then ['\\', 'n']
  else if c = '\t' then ['\\', 't']
  else if c = '\r' then ['\\', 'r']
  else if c = '\x08' then ['\\', 'b']
  else if c = '\x0c' then ['\\', 'f']
  else [c]

/-- The escaped body of a JSON string literal (without the quotes). -/
def escString (s : String) : List Char :=
  s.data.flatMap escChar

/-- Decode one escape character after a backslash (`JSON.parse`). -/
def unescCh (c : Char) : Option Char :=
  if c = '\x22' then some '\x22'
  else if c = '\\' then some '\\'
  else if c = '/' then some '/'
  else if c = 'n' then some '\n'
  else if c = 't' then some '\t'
  else if c = 'r' then some '\r'
  else if c = 'b' then some '\x08'
  else if c = 'f' then some '\x0c'
  else none

/-- Parse the body of a JSON string literal up to and including the
closing quote; returns the decoded characters and the rest of the
input. -/
def parseStrAux : List Char → Option (List Char × List Char)
  | [] => none
  | [c] => if c = '\x22' then some ([], []) else none
  | c :: e :: rest =>
    if c = '\x22' then some ([], e :: rest)
    else if c = '\\' then
      match unescCh e with
      | none => none
      | some d =>
        match parseStrAux rest with
        | none => none
        | some p => some (d :: p.1, p.2)
    else
      match parseStrAux (e :: rest) with
      | none => none
      | some p => some (c :: p.1, p.2)

/-- The decimal digit characters. -/
def digitCh (m : Nat) : Char :=
  match m with
  | 0 => '0'
  | 1 => '1'
  | 2 => '2'
  | 3 => '3'
  | 4 => '4'
  | 5 => '5'
  | 6 => '6'
  | 7 => '7'
  | 8 => '8'
  | _ => '9'

/-- Decimal digit emission, most significant first; the fuel dominates
the value to guarantee enough iterations. -/
def renderNatAux : Nat → Nat → List Char
  | 0, _ => []
  | Nat.succ fuel, n =>
    if n < 10 then [digitCh n]
    else renderNatAux fuel (n / 10) ++ [digitCh (n % 10)]

/-- Decimal rendering of a natural number (`JSON.stringify` on an
integer-valued JS number). -/
def renderNat (n : Nat) : List Char :=
  renderNatAux (n + 1) n

/-- Split a leading run of decimal digits off the input. -/
def takeDigits : List Char → List Char × List Char
  | [] => ([], [])
  | c :: rest =>
    if c.isDigit then
      let p := takeDigits rest
      (c :: p.1, p.2)
    else ([], c :: rest)

/-- Numeric value of a digit string (most significant first). -/
def digitsVal (ds : List Char) : Nat :=
  ds.foldl (fun a c => a * 10 + (c.toNat - 48)) 0

/-- Parse a nonempty leading run of digits as a natural number. -/
def parseNat (l : List Char) : Option (Nat × List Char) :=
  let p := takeDigits l
  if p.1.isEmpty then none else some (digitsVal p.1, p.2)

/-- The input does not start with a decimal digit (so a digit run ends
exactly there). -/
def noLeadingDigit : List Char → Bool
  | [] => true
  | c :: _ => !c.isDigit

/-- Match a literal token at the head of the input. -/
def expectLit : List Char → List Char → Option (List Char)
  | [], l => some l
  | _ :: _, [] => none
  | p :: ps, c :: rest => if c = p then expectLit ps rest else none

/-- `{"surahNumber":` — the object opener and first key. -/
def kOpen : List Char := "\x7b\x22surahNumber\x22:".data

/-- `,"surahName":"` — second key, including the opening quote of its
string value. -/
def kName : List Char := ",\x22surahName\x22:\x22".data

/-- `,"ayahNumber":` — third key. -/
def kAyah : List Char := ",\x22ayahNumber\x22:".data

/-- `,"text":"` — fourth key, including the opening quote of its string
value. -/
def kText : List Char := ",\x22text\x22:\x22".data

/-- `JSON.stringify` of one `SavedBookmark` object, keys in the insertion
order of the object literal at lines 75-80. -/
def renderBookmark (b : SavedBookmark) : List Char :=
  kOpen ++ (renderNat b.surahNumber ++
    (kName ++ (escString b.surahName ++ ('\x22' ::
      (kAyah ++ (renderNat b.ayahNumber ++
        (kText ++ (escString b.text ++ ('\x22' :: ['\x7d'])))))))))

/-- Parse one serialized `SavedBookmark` object. -/
def parseBookmarkObj (l : List Char) : Option (SavedBookmark × List Char) :=
  (expectLit kOpen l).bind fun l1 =>
  (parseNat l1).bind fun p1 =>
  (expectLit kName p1.2).bind fun l3 =>
  (parseStrAux l3).bind fun p2 =>
  (expectLit kAyah p2.2).bind fun l5 =>
  (parseNat l5).bind fun p3 =>
  (expectLit kText p3.2).bind fun l7 =>
  (parseStrAux l7).bind fun p4 =>
  match p4.2 with
  | '\x7d' :: l9 =>
      some ({ surahNumber := p1.1, surahName := String.mk p2.1,
              ayahNumber := p3.1, text := String.mk p4.1 }, l9)
  | _ => none

/-- The comma-separated serialized objects of a bookmark array. -/
def renderItems : List SavedBookmark → List Char
  | [] => []
  | [b] => renderBookmark b
  | b :: bs => renderBookmark b ++ (',' :: renderItems bs)

/-- Parse the comma-separated objects of a nonempty array, consuming the
closing `]`. The fuel bounds the number of elements. -/
def parseItems : Nat → List Char → Option (List SavedBookmark × List Char)
  | 0, _ => none
  | Nat.succ fuel, l =>
    (parseBookmarkObj l).bind fun p =>
      match p.2 with
      | ']' :: rest2 => some ([p.1], rest2)
      | ',' :: rest2 =>
        (parseItems fuel rest2).bind fun q => some (p.1 :: q.1, q.2)
      | _ => none

/-- `JSON.stringify(bookmarks)` — the blob written by the persist effect
(lines 39-41). -/
def stringifyBookmarks (bs : List SavedBookmark) : String :=
  String.mk ('[' :: (renderItems bs ++ [']']))

/-- `JSON.parse` of a persisted blob expected to hold a `SavedBookmark[]`;
`none` models the thrown `SyntaxError` on malformed input. -/
def parseBookmarks (s : String) : Option (List SavedBookmark) :=
  match s.data with
  | '[' :: (']' :: rest2) => if rest2.isEmpty then some [] else none
  | '[' :: rest =>
    (parseItems rest.length rest).bind fun q =>
      if q.2.isEmpty then some q.1 else none
  | _ => none

/-- The load effect (lines 31-37): an absent blob leaves the initial
empty collection; a present blob goes through `JSON.parse`, whose failure
(`none`) propagates out of the effect uncaught. -/
def loadBookmarks (blob : Option String) : Option (List SavedBookmark) :=
  match blob with
  | none => some []
  | some s => parseBookmarks s

/-- The persist effect (lines 39-41): the blob after persisting the
collection. -/
def persistBookmarks (bs : List SavedBookmark) : Option String :=
  some (stringifyBookmarks bs)

end QuranReader

/-!
## Round-trip lemmas for the persistence serializer/parser
-/

namespace QuranReader

theorem parseStrAux_cons (c : Char) (rest : List Char) (h1 : c ≠ '\x22')
    (h2 : c ≠ '\\') :
    parseStrAux (c :: rest) =
      (parseStrAux rest).map (fun p => (c :: p.1, p.2)) := by
  cases rest with
  | nil => simp [parseStrAux, h1, h2]
  | cons e t =>
    rw [parseStrAux, if_neg h1, if_neg h2]
    cases parseStrAux (e :: t) <;> rfl

theorem parseStrAux_escChar (c : Char) (rest : List Char) :
    parseStrAux (escChar c ++ rest) =
      (parseStrAux rest).map (fun p => (c :: p.1, p.2)) := by
  unfold escChar
  split_ifs with h1 h2 h3 h4 h5 h6 h7
  · subst h1; rw [List.cons_append, List.cons_append, List.nil_append,
      parseStrAux, if_neg (by decide), if_pos rfl]
    simp [unescCh]
    cases parseStrAux rest <;> rfl
  · subst h2; rw [List.cons_append, List.cons_append, List.nil_append,
      parseStrAux, if_neg (by decide), if_pos rfl]
    simp [unescCh]
    cases parseStrAux rest <;> rfl
  · subst h3; rw [List.cons_append, List.cons_append, List.nil_append,
      parseStrAux, if_neg (by decide), if_pos rfl]
    simp [unescCh]
    cases parseStrAux rest <;> rfl
  · subst h4; rw [List.cons_append, List.cons_append, List.nil_append,
      parseStrAux, if_neg (by decide), if_pos rfl]
    simp [unescCh]
    cases parseStrAux rest <;> rfl
  · subst h5; rw [List.cons_append, List.cons_append, List.nil_append,
      parseStrAux, if_neg (by decide), if_pos rfl]
    simp [unescCh]
    cases parseStrAux rest <;> rfl
  · subst h6; rw [List.cons_append, List.cons_append, List.nil_append,
      parseStrAux, if_neg (by decide), if_pos rfl]
    simp [unescCh]
    cases parseStrAux rest <;> rfl
  · subst h7; rw [List.cons_append, List.cons_append, List.nil_append,
      parseStrAux, if_neg (by decide), if_pos rfl]
    simp [unescCh]
    cases parseStrAux rest <;> rfl
  · rw [List.cons_append, List.nil_append, parseStrAux_cons c rest h1 h2]

theorem parseStrAux_escString (s : List Char) (rest : List Char) :
    parseStrAux (s.flatMap escChar ++ ('\x22' :: rest)) = some (s, rest) := by
  induction s with
  | nil =>
    cases rest <;> simp [parseStrAux]
  | cons c cs ih =>
    rw [List.flatMap_cons, List.append_assoc, parseStrAux_escChar, ih]
    rfl

theorem expectLit_append (p l : List Char) : expectLit p (p ++ l) = some l := by
  induction p with
  | nil => rfl
  | cons c ps ih => simp [expectLit, ih]

theorem digitCh_isDigit (m : Nat) (h : m < 10) : (digitCh m).isDigit = true := by
  interval_cases m <;> decide

theorem digitCh_val (m : Nat) (h : m < 10) : (digitCh m).toNat - 48 = m := by
  interval_cases m <;> decide

theorem renderNatAux_digits (f : Nat) : ∀ n, n < f →
    ∀ c ∈ renderNatAux f n, c.isDigit = true := by
  induction f with
  | zero => intro n hn; omega
  | succ g ih =>
    intro n hn c hc
    rw [renderNatAux] at hc
    by_cases h10 : n < 10
    · rw [if_pos h10] at hc
      simp at hc
      subst hc
      exact digitCh_isDigit n h10
    · rw [if_neg h10] at hc
      rcases List.mem_append.mp hc with h | h
      · exact ih (n / 10) (by omega) c h
      · simp at h
        subst h
        exact digitCh_isDigit (n % 10) (Nat.mod_lt _ (by omega))

theorem renderNatAux_ne_nil (f n : Nat) (h : n < f) :
    renderNatAux f n ≠ [] := by
  cases f with
  | zero => omega
  | succ g =>
    rw [renderNatAux]
    by_cases h10 : n < 10
    · simp [h10]
    · rw [if_neg h10]
      simp

theorem renderNatAux_foldl (f : Nat) : ∀ n acc, n < f →
    (renderNatAux f n).foldl (fun a c => a * 10 + (c.toNat - 48)) acc =
      acc * 10 ^ (renderNatAux f n).length + n := by
  induction f with
  | zero => intro n acc hn; omega
  | succ g ih =>
    intro n acc hn
    rw [renderNatAux]
    by_cases h10 : n < 10
    · rw [if_pos h10]
      simp [List.foldl, digitCh_val n h10]
    · rw [if_neg h10]
      rw [List.foldl_append, ih (n / 10) acc (by omega)]
      have hval : (digitCh (n % 10)).toNat - 48 = n % 10 :=
        digitCh_val _ (Nat.mod_lt _ (by omega))
      have hdm : 10 * (n / 10) + n % 10 = n := Nat.div_add_mod n 10
      simp only [List.foldl, hval, List.length_append, List.length_cons,
        List.length_nil]
      have hpow : 10 ^ ((renderNatAux g (n / 10)).length + (0 + 1)) =
          10 ^ (renderNatAux g (n / 10)).length * 10 := by
        rw [pow_succ]
      rw [hpow]
      have expand : (acc * 10 ^ (renderNatAux g (n / 10)).length + n / 10) * 10 + n % 10
          = acc * (10 ^ (renderNatAux g (n / 10)).length * 10) + (10 * (n / 10) + n % 10) := by
        ring
      rw [expand, hdm]

theorem takeDigits_append (ds r : List Char)
    (hds : ∀ c ∈ ds, c.isDigit = true) (hr : noLeadingDigit r = true) :
    takeDigits (ds ++ r) = (ds, r) := by
  induction ds with
  | nil =>
    cases r with
    | nil => rfl
    | cons c t =>
      simp only [noLeadingDigit, Bool.not_eq_true'] at hr
      simp [takeDigits, hr]
  | cons c ds ih =>
    have hc : c.isDigit = true := hds c (List.mem_cons_self c ds)
    rw [List.cons_append, takeDigits, if_pos hc,
      ih (fun x hx => hds x (List.mem_cons_of_mem c hx))]

theorem parseNat_renderNat (n : Nat) (r : List Char)
    (hr : noLeadingDigit r = true) :
    parseNat (renderNat n ++ r) = some (n, r) := by
  have hlt : n < n + 1 := Nat.lt_succ_self n
  have htake : takeDigits (renderNat n ++ r) = (renderNat n, r) :=
    takeDigits_append _ _ (renderNatAux_digits (n + 1) n hlt) hr
  have hne : renderNat n ≠ [] := renderNatAux_ne_nil (n + 1) n hlt
  rw [parseNat]
  simp only [htake]
  rw [if_neg (by simpa [List.isEmpty_iff] using hne)]
  have hval : digitsVal (renderNat n) = n := by
    have := renderNatAux_foldl (n + 1) n 0 hlt
    simpa [digitsVal, renderNat] using this
  rw [hval]

theorem noLeadingDigit_kName (l : List Char) :
    noLeadingDigit (kName ++ l) = true := rfl

theorem noLeadingDigit_kText (l : List Char) :
    noLeadingDigit (kText ++ l) = true := rfl

theorem parseBookmarkObj_renderBookmark (b : SavedBookmark)
    (rest : List Char) :
    parseBookmarkObj (renderBookmark b ++ rest) = some (b, rest) := by
  obtain ⟨sn, nm, an, tx⟩ := b
  rw [renderBookmark]
  simp only [List.append_assoc, List.cons_append, List.nil_append]
  rw [parseBookmarkObj]
  rw [expectLit_append, Option.some_bind]
  rw [parseNat_renderNat _ _ (noLeadingDigit_kName _), Option.some_bind]
  rw [expectLit_append, Option.some_bind]
  rw [show (escString nm ++ ('\x22' :: (kAyah ++ (renderNat an ++
      (kText ++ (escString tx ++ ('\x22' :: ('\x7d' :: rest)))))))) =
      (nm.data.flatMap escChar ++ ('\x22' :: (kAyah ++ (renderNat an ++
      (kText ++ (escString tx ++ ('\x22' :: ('\x7d' :: rest)))))))) from rfl]
  rw [parseStrAux_escString, Option.some_bind]
  rw [expectLit_append, Option.some_bind]
  rw [parseNat_renderNat _ _ (noLeadingDigit_kText _), Option.some_bind]
  rw [expectLit_append, Option.some_bind]
  rw [show (escString tx ++ ('\x22' :: ('\x7d' :: rest))) =
      (tx.data.flatMap escChar ++ ('\x22' :: ('\x7d' :: rest))) from rfl]
  rw [parseStrAux_escString, Option.some_bind]
  exact rfl


theorem renderBookmark_cons (b : SavedBookmark) :
    ∃ t, renderBookmark b = '\x7b' :: t := by
  refine ⟨"\x22surahNumber\x22:".data ++ (renderNat b.surahNumber ++
    (kName ++ (escString b.surahName ++ ('\x22' ::
      (kAyah ++ (renderNat b.ayahNumber ++
        (kText ++ (escString b.text ++ ('\x22' :: ['\x7d']))))))))), ?_⟩
  rfl

theorem renderItems_length (bs : List SavedBookmark) :
    bs.length ≤ (renderItems bs).length := by
  induction bs with
  | nil => simp [renderItems]
  | cons b bs ih =>
    obtain ⟨t, ht⟩ := renderBookmark_cons b
    cases bs with
    | nil => simp [renderItems, ht]
    | cons b2 bs2 =>
      rw [show renderItems (b :: b2 :: bs2) =
        renderBookmark b ++ (',' :: renderItems (b2 :: bs2)) from rfl]
      simp only [List.length_append, List.length_cons, ht] at *
      omega

theorem parseItems_renderItems :
    ∀ (bs : List SavedBookmark) (fuel : Nat) (rest : List Char),
      bs ≠ [] → bs.length ≤ fuel →
      parseItems fuel (renderItems bs ++ (']' :: rest)) = some (bs, rest) := by
  intro bs
  induction bs with
  | nil => intro fuel rest h; exact absurd rfl h
  | cons b bs ih =>
    intro fuel rest _ hlen
    cases fuel with
    | zero => simp at hlen
    | succ f =>
      cases bs with
      | nil =>
        rw [show renderItems [b] = renderBookmark b from rfl]
        rw [parseItems, parseBookmarkObj_renderBookmark, Option.some_bind]
        exact rfl
      | cons b2 bs2 =>
        rw [show renderItems (b :: b2 :: bs2) =
          renderBookmark b ++ (',' :: renderItems (b2 :: bs2)) from rfl]
        rw [List.append_assoc, List.cons_append]
        rw [parseItems, parseBookmarkObj_renderBookmark, Option.some_bind]
        have hih := ih f rest (by simp) (by simp at hlen ⊢; omega)
        show (parseItems f (renderItems (b2 :: bs2) ++ (']' :: rest))).bind
          (fun q => some (b :: q.1, q.2)) = _
        rw [hih]
        exact rfl

theorem parseBookmarks_stringifyBookmarks (bs : List SavedBookmark) :
    parseBookmarks (stringifyBookmarks bs) = some bs := by
  cases bs with
  | nil => rfl
  | cons b bs2 =>
    obtain ⟨t, ht⟩ := renderBookmark_cons b
    have hhead : ∃ u, renderItems (b :: bs2) = '\x7b' :: u := by
      cases bs2 with
      | nil => exact ⟨t, ht⟩
      | cons b2 bs3 =>
        refine ⟨t ++ (',' :: renderItems (b2 :: bs3)), ?_⟩
        rw [show renderItems (b :: b2 :: bs3) =
          renderBookmark b ++ (',' :: renderItems (b2 :: bs3)) from rfl, ht]
        rfl
    obtain ⟨u, hu⟩ := hhead
    rw [stringifyBookmarks, hu]
    show (parseItems (('\x7b' :: u) ++ [']']).length (('\x7b' :: u) ++ [']'])).bind
      (fun q => if q.2.isEmpty then some q.1 else none) = some (b :: bs2)
    have hfe : ('\x7b' :: u) ++ [']'] =
        renderItems (b :: bs2) ++ (']' :: ([] : List Char)) := by
      rw [← hu]
    rw [hfe]
    have hfuel : (b :: bs2).length ≤
        (renderItems (b :: bs2) ++ (']' :: ([] : List Char))).length := by
      have := renderItems_length (b :: bs2)
      simp only [List.length_append, List.length_cons, List.length_nil] at *
      omega
    rw [parseItems_renderItems (b :: bs2) _ [] (by simp) hfuel]
    rfl

end QuranReader

/-!
## Claims
-/

namespace QuranReader

set_option maxRecDepth 4000

theorem any_filter_not (p : SavedBookmark → Bool) (l : List SavedBookmark) :
    (l.filter fun b => !(p b)).any p = false := by
  rw [List.any_eq_false]
  intro x hx
  rw [List.mem_filter] at hx
  simpa using hx.2

theorem filter_not_of_any_false (p : SavedBookmark → Bool)
    (l : List SavedBookmark) (h : l.any p = false) :
    (l.filter fun b => !(p b)) = l := by
  rw [List.filter_eq_self]
  intro a ha
  rw [List.any_eq_false] at h
  simpa using h a ha

theorem toggle_eq (st : ReaderState) (sel : Surah) (ayah : Ayah)
    (lang : Language) (hsel : st.selectedSurah = some sel) :
    toggleAyahBookmark ayah lang st =
      if st.bookmarks.any (bookmarkMatches sel.number ayah.numberInSurah) then
        { st with bookmarks := st.bookmarks.filter (fun b => !(bookmarkMatches sel.number ayah.numberInSurah b)) }
      else
        { st with bookmarks := st.bookmarks ++ [snapshotBookmark sel ayah lang] } := by
  unfold toggleAyahBookmark
  rw [hsel]

theorem snapshot_matches (sel : Surah) (ayah : Ayah) (lang : Language) :
    bookmarkMatches sel.number ayah.numberInSurah
      (snapshotBookmark sel ayah lang) = true := by
  simp [bookmarkMatches, snapshotBookmark]

/-- Claim C2 (amended): toggling twice with the same key (same
label/text snapshot) returns the collection to exactly its original state
when no bookmark with that key is present; when one is present, the net
effect is the original collection with every bookmark of that key removed
and the fresh snapshot appended at the end — not the original order. -/
theorem claim_C2 (st : ReaderState) (sel : Surah) (ayah : Ayah)
    (lang : Language) (hsel : st.selectedSurah = some sel) :
    (toggleAyahBookmark ayah lang (toggleAyahBookmark ayah lang st)).bookmarks =
      if containsBookmark st.bookmarks sel.number ayah.numberInSurah then
        st.bookmarks.filter
          (fun b => !(bookmarkMatches sel.number ayah.numberInSurah b)) ++
          [snapshotBookmark sel ayah lang]
      else st.bookmarks := by
  by_cases hc : st.bookmarks.any (bookmarkMatches sel.number ayah.numberInSurah) = true
  · rw [show containsBookmark st.bookmarks sel.number ayah.numberInSurah = st.bookmarks.any (bookmarkMatches sel.number ayah.numberInSurah) from rfl, hc, if_pos rfl]
    rw [toggle_eq st sel ayah lang hsel, if_pos hc]
    rw [toggle_eq ({ st with bookmarks := st.bookmarks.filter (fun b => !(bookmarkMatches sel.number ayah.numberInSurah b)) } : ReaderState) sel ayah lang hsel]
    rw [if_neg (by rw [show ({ st with bookmarks := st.bookmarks.filter (fun b => !(bookmarkMatches sel.number ayah.numberInSurah b)) } : ReaderState).bookmarks = st.bookmarks.filter (fun b => !(bookmarkMatches sel.number ayah.numberInSurah b)) from rfl, any_filter_not]; exact Bool.false_ne_true)]
  · rw [Bool.not_eq_true] at hc
    rw [show containsBookmark st.bookmarks sel.number ayah.numberInSurah = st.bookmarks.any (bookmarkMatches sel.number ayah.numberInSurah) from rfl, hc, if_neg (by exact Bool.false_ne_true)]
    rw [toggle_eq st sel ayah lang hsel, if_neg (by rw [hc]; exact Bool.false_ne_true)]
    rw [toggle_eq ({ st with bookmarks := st.bookmarks ++ [snapshotBookmark sel ayah lang] } : ReaderState) sel ayah lang hsel]
    have hany : (st.bookmarks ++ [snapshotBookmark sel ayah lang]).any (bookmarkMatches sel.number ayah.numberInSurah) = true := by
      rw [List.any_append]
      simp [snapshot_matches]
    rw [if_pos (by exact hany)]
    show (st.bookmarks ++ [snapshotBookmark sel ayah lang]).filter (fun b => !(bookmarkMatches sel.number ayah.numberInSurah b)) = st.bookmarks
    rw [List.filter_append, filter_not_of_any_false _ _ hc]
    simp [snapshot_matches]



/-- Claim C2 (counterexample): with a collection whose first bookmark is
keyed (1,1) and with a matching label/text snapshot, toggling (1,1) twice
does not restore the original collection — the entry moves to the end. -/
theorem claim_C2_counterexample :
    (toggleAyahBookmark ⟨1, 1, "T"⟩ Language.en
      (toggleAyahBookmark ⟨1, 1, "T"⟩ Language.en
        { surahs := [], selectedSurah := some ⟨1, "الفاتحة", "Al-Fatihah", 7, "Meccan"⟩,
          ayahs := [], loading := false, searchTerm := "",
          bookmarks := [⟨1, "Al-Fatihah", 1, "T"⟩, ⟨2, "Al-Baqarah", 2, "U"⟩],
          showBookmarksOnly := false })).bookmarks ≠
      [⟨1, "Al-Fatihah", 1, "T"⟩, ⟨2, "Al-Baqarah", 2, "U"⟩] := by
  decide

/-- Claim C2 witness: the amended statement instantiated on an empty
collection with surah 2, ayah 5. -/
theorem claim_C2_witness :
    (toggleAyahBookmark ⟨1, 5, "T"⟩ Language.en
      (toggleAyahBookmark ⟨1, 5, "T"⟩ Language.en
        { surahs := [], selectedSurah := some ⟨2, "البقرة", "Al-Baqarah", 286, "Medinan"⟩,
          ayahs := [], loading := false, searchTerm := "",
          bookmarks := [], showBookmarksOnly := false })).bookmarks =
      if containsBookmark [] 2 5 then
        List.filter (fun b => !(bookmarkMatches 2 5 b)) [] ++
          [snapshotBookmark ⟨2, "البقرة", "Al-Baqarah", 286, "Medinan"⟩ ⟨1, 5, "T"⟩ Language.en]
      else [] :=
  claim_C2 _ ⟨2, "البقرة", "Al-Baqarah", 286, "Medinan"⟩ ⟨1, 5, "T"⟩ Language.en rfl

theorem not_mem_keys_of_any_false (bs : List SavedBookmark) (n i : Nat)
    (h : bs.any (bookmarkMatches n i) = false) :
    (n, i) ∉ bs.map (fun b => (b.surahNumber, b.ayahNumber)) := by
  intro hmem
  rw [List.mem_map] at hmem
  obtain ⟨b, hb, hkey⟩ := hmem
  rw [List.any_eq_false] at h
  have hfalse := h b hb
  rw [bookmarkMatches] at hfalse
  rw [Prod.mk.injEq] at hkey
  obtain ⟨h1, h2⟩ := hkey
  subst h1; subst h2
  simp at hfalse

theorem keysUnique_filter (bs : List SavedBookmark)
    (p : SavedBookmark → Bool) (h : keysUnique bs) :
    keysUnique (bs.filter p) := by
  unfold keysUnique at *
  exact List.Nodup.sublist ((List.filter_sublist _).map _) h

theorem applyOp_keysUnique (op : BookmarkOp) (st : ReaderState)
    (h : keysUnique st.bookmarks) : keysUnique (applyOp op st).bookmarks := by
  cases op with
  | remove n i => exact keysUnique_filter _ _ h
  | toggle a lg =>
    show keysUnique (toggleAyahBookmark a lg st).bookmarks
    cases hsel : st.selectedSurah with
    | none =>
      rw [show toggleAyahBookmark a lg st = st by unfold toggleAyahBookmark; rw [hsel]]
      exact h
    | some sel =>
      rw [toggle_eq st sel a lg hsel]
      by_cases hc : st.bookmarks.any (bookmarkMatches sel.number a.numberInSurah) = true
      · rw [if_pos hc]
        exact keysUnique_filter _ _ h
      · rw [Bool.not_eq_true] at hc
        rw [if_neg (by rw [hc]; exact Bool.false_ne_true)]
        show keysUnique (st.bookmarks ++ [snapshotBookmark sel a lg])
        unfold keysUnique
        rw [List.map_append, List.nodup_append]
        refine ⟨h, by simp, ?_⟩
        intro x hx hx2
        simp only [List.map_cons, List.map_nil, List.mem_cons,
          List.not_mem_nil, or_false] at hx2
        subst hx2
        exact not_mem_keys_of_any_false _ _ _ hc
          (by simpa [snapshotBookmark] using hx)

/-- Claim C3: starting from any state whose bookmark collection has
pairwise-distinct (surahNumber, ayahNumber) keys, any sequence of toggle
and remove operations preserves that uniqueness invariant. -/
theorem claim_C3 (st : ReaderState) (ops : List BookmarkOp)
    (h : keysUnique st.bookmarks) :
    keysUnique (runOps ops st).bookmarks := by
  induction ops generalizing st with
  | nil => exact h
  | cons op ops ih => exact ih _ (applyOp_keysUnique op st h)

/-- Claim C3 witness: the invariant after a concrete toggle-then-remove
sequence from the empty collection. -/
theorem claim_C3_witness :
    keysUnique (runOps [BookmarkOp.toggle ⟨1, 1, "t"⟩ Language.en,
        BookmarkOp.remove 1 1]
      { surahs := [], selectedSurah := some ⟨1, "الفاتحة", "Al-Fatihah", 7, "Meccan"⟩,
        ayahs := [], loading := false, searchTerm := "",
        bookmarks := [], showBookmarksOnly := false }).bookmarks :=
  claim_C3 _ _ (by decide)



/-- Claim C1 (counterexample): loading the malformed persisted blob
"not-json" does not return the empty collection — the parse fails and the
failure propagates (`JSON.parse` throws; there is no try/catch in the load
effect), refuting "returns the empty collection rather than failing". -/
theorem claim_C1_counterexample :
    loadBookmarks (some "not-json") = none ∧
    loadBookmarks (some "not-json") ≠ some [] := by
  constructor
  · rfl
  · intro h
    exact Option.noConfusion h

/-- Claim C1 (amended): load yields the bookmark collection when the
blob parses and the empty collection when the blob is absent; a malformed
blob (in particular "not-json") makes the load fail with a parse error
rather than yield the empty collection. -/
theorem claim_C1 (s : String) (bs : List SavedBookmark)
    (hparse : parseBookmarks s = some bs) :
    loadBookmarks (Option.none) = some [] ∧
    loadBookmarks (some s) = some bs ∧
    loadBookmarks (some "not-json") = none :=
  ⟨rfl, hparse, rfl⟩

/-- Claim C1 witness: the amended statement instantiated at the blob
"[]", which parses to the empty collection. -/
theorem claim_C1_witness :
    loadBookmarks (Option.none) = some [] ∧
    loadBookmarks (some "[]") = some [] ∧
    loadBookmarks (some "not-json") = none :=
  claim_C1 "[]" [] rfl

/-- Claim C4 (counterexample): with Arabic active, the query "al-f" and
a section whose local name is "الفاتحة" and english name "Al-Fatihah", the
code's filter keeps the section (english match) while the language-
dependent filter described by the spec returns nothing: the code's match
criterion does not depend on the active language. -/
theorem claim_C4_counterexample :
    filteredSurahs
      { surahs := [⟨1, "الفاتحة", "Al-Fatihah", 7, "Meccan"⟩],
        selectedSurah := none, ayahs := [], loading := false,
        searchTerm := "al-f", bookmarks := [], showBookmarksOnly := false } ≠
    specFilteredSurahs Language.ar [⟨1, "الفاتحة", "Al-Fatihah", 7, "Meccan"⟩]
      "al-f" := by
  decide

/-- Claim C4 (amended): for every query, filter returns exactly the
sections (in catalog order) where the local-name field contains the query
as a literal substring OR the english-name field contains it
case-insensitively, regardless of the active language. -/
theorem claim_C4 (st : ReaderState) :
    (∀ s, s ∈ filteredSurahs st ↔ s ∈ st.surahs ∧
      (strIncludes s.name st.searchTerm = true ∨
       strIncludes (jsToLowerCase s.englishName)
         (jsToLowerCase st.searchTerm) = true)) ∧
    (filteredSurahs st).Sublist st.surahs := by
  constructor
  · intro s
    rw [filteredSurahs, List.mem_filter, Bool.or_eq_true]
  · exact List.filter_sublist _

/-- Claim C5 (counterexample): starting from a catalog state whose
bookmarksOnly flag is true, selecting a section and going back yields the
flag false, not the pre-Detail value true. -/
theorem claim_C5_counterexample :
    ({ surahs := [], selectedSurah := none, ayahs := [], loading := false,
       searchTerm := "", bookmarks := [],
       showBookmarksOnly := true } : ReaderState).showBookmarksOnly = true ∧
    (goBack (loadSurah ⟨1, "الفاتحة", "Al-Fatihah", 7, "Meccan"⟩ (Except.ok [])
      { surahs := [], selectedSurah := none, ayahs := [], loading := false,
        searchTerm := "", bookmarks := [],
        showBookmarksOnly := true })).showBookmarksOnly = false :=
  ⟨rfl, rfl⟩

/-- Claim C5 (amended): selectSection(s) followed by back returns to
the Catalog (no selection) with the bookmarksOnly flag false regardless of
its value before entering Detail, because selectSection resets the flag
and the back transition itself leaves the flag unchanged. -/
theorem claim_C5 (st : ReaderState) (s : Surah) (items : List Ayah) :
    (goBack (loadSurah s (Except.ok items) st)).selectedSurah = none ∧
    (goBack (loadSurah s (Except.ok items) st)).showBookmarksOnly = false ∧
    (goBack st).showBookmarksOnly = st.showBookmarksOnly :=
  ⟨rfl, rfl, rfl⟩

/-- Claim C6: persisting any bookmark collection and loading the
resulting blob yields exactly the same collection, order preserved. -/
theorem claim_C6 (B : List SavedBookmark) :
    loadBookmarks (persistBookmarks B) = some B :=
  parseBookmarks_stringifyBookmarks B

/-- Claim C7: after toggling a bookmark on item 5 of section 2 (not
previously bookmarked) and then successfully loading another section's
detail, the bookmark collection is untouched by the detail load and the
membership scan for key (2,5) still answers true. -/
theorem claim_C7 (st : ReaderState) (sel : Surah) (ayah : Ayah)
    (lang : Language) (s1 : Surah) (items : List Ayah)
    (hsel : st.selectedSurah = some sel) (hnum : sel.number = 2)
    (hidx : ayah.numberInSurah = 5)
    (hnew : containsBookmark st.bookmarks 2 5 = false) :
    (loadSurah s1 (Except.ok items) (toggleAyahBookmark ayah lang st)).bookmarks =
      (toggleAyahBookmark ayah lang st).bookmarks ∧
    containsBookmark
      (loadSurah s1 (Except.ok items)
        (toggleAyahBookmark ayah lang st)).bookmarks 2 5 = true := by
  refine ⟨rfl, ?_⟩
  show containsBookmark (toggleAyahBookmark ayah lang st).bookmarks 2 5 = true
  rw [toggle_eq st sel ayah lang hsel]
  rw [if_neg (by rw [show st.bookmarks.any (bookmarkMatches sel.number ayah.numberInSurah) = containsBookmark st.bookmarks 2 5 by rw [hnum, hidx]; rfl, hnew]; exact Bool.false_ne_true)]
  show containsBookmark (st.bookmarks ++ [snapshotBookmark sel ayah lang]) 2 5 = true
  rw [containsBookmark, List.any_append]
  have : bookmarkMatches 2 5 (snapshotBookmark sel ayah lang) = true := by
    simp [bookmarkMatches, snapshotBookmark, hnum, hidx]
  simp [this]

/-- Claim C7 witness: the scenario instantiated with surah 2 selected,
ayah 5 toggled, then surah 1's detail loaded. -/
theorem claim_C7_witness :
    (loadSurah ⟨1, "الفاتحة", "Al-Fatihah", 7, "Meccan"⟩ (Except.ok [])
      (toggleAyahBookmark ⟨100, 5, "verse"⟩ Language.en
        { surahs := [], selectedSurah := some ⟨2, "البقرة", "Al-Baqarah", 286, "Medinan"⟩,
          ayahs := [], loading := false, searchTerm := "",
          bookmarks := [], showBookmarksOnly := false })).bookmarks =
      (toggleAyahBookmark ⟨100, 5, "verse"⟩ Language.en
        { surahs := [], selectedSurah := some ⟨2, "البقرة", "Al-Baqarah", 286, "Medinan"⟩,
          ayahs := [], loading := false, searchTerm := "",
          bookmarks := [], showBookmarksOnly := false }).bookmarks ∧
    containsBookmark
      (loadSurah ⟨1, "الفاتحة", "Al-Fatihah", 7, "Meccan"⟩ (Except.ok [])
        (toggleAyahBookmark ⟨100, 5, "verse"⟩ Language.en
          { surahs := [], selectedSurah := some ⟨2, "البقرة", "Al-Baqarah", 286, "Medinan"⟩,
            ayahs := [], loading := false, searchTerm := "",
            bookmarks := [], showBookmarksOnly := false })).bookmarks 2 5 = true :=
  claim_C7 _ ⟨2, "البقرة", "Al-Baqarah", 286, "Medinan"⟩ ⟨100, 5, "verse"⟩
    Language.en ⟨1, "الفاتحة", "Al-Fatihah", 7, "Meccan"⟩ [] rfl rfl rfl rfl

/-- Claim C8: when the catalog fetch fails, the state — the section
list and every other field — is exactly what it was before the call; the
catch block only logs. -/
theorem claim_C8 (e : String) (st : ReaderState) :
    fetchSurahs (Except.error e) st = st :=
  rfl

/-- Claim C9: filtering with the empty query returns the full section
list unchanged, in fetch order. -/
theorem claim_C9 (st : ReaderState) (h : st.searchTerm = "") :
    filteredSurahs st = st.surahs := by
  rw [filteredSurahs, List.filter_eq_self]
  intro s _
  rw [h]
  simp [strIncludes, List.nil_infix]

/-- Claim C9 witness: the empty-query filter on the initial state. -/
theorem claim_C9_witness :
    filteredSurahs initialState = initialState.surahs :=
  claim_C9 initialState rfl

/-- Claim C10: with no section selected, toggling a bookmark is a
guarded no-op on the whole state, and the bookmarked-check returns false
regardless of the collection. -/
theorem claim_C10 (st : ReaderState) (ayah : Ayah) (lang : Language)
    (n : Nat) (h : st.selectedSurah = none) :
    toggleAyahBookmark ayah lang st = st ∧ isAyahBookmarked n st = false := by
  constructor
  · unfold toggleAyahBookmark; rw [h]
  · unfold isAyahBookmarked; rw [h]

/-- Claim C10 witness: the guarded no-op on the initial state. -/
theorem claim_C10_witness :
    toggleAyahBookmark ⟨1, 1, "x"⟩ Language.en initialState = initialState ∧
    isAyahBookmarked 3 initialState = false :=
  claim_C10 initialState ⟨1, 1, "x"⟩ Language.en 3 rfl

end QuranReader
